import Mathlib

/-!
Verification development for the seacan build-and-discover engine.

The Rust sources under src/ are shallowly embedded below. Subprocess
execution is abstracted: a cargo run is represented by the list of
structured messages observed on stdout, the exit status, and the result
of reading stderr to completion. Strings are handled as character lists
where the embedded code scans text, so that all definitions evaluate
inside the kernel.
-/

namespace Seacan

/-! Data model mirroring the cargo metadata types used by the crate. -/

/-- Package identifier, a single opaque repr string. -/
structure PackageId where
  repr : String
deriving DecidableEq

/-- Target descriptor: name plus source path, the fields the crate reads. -/
structure Target where
  name : String
  src_path : String
deriving DecidableEq

/-- Compilation profile: optimization level and the test-compilation flag. -/
structure ArtifactProfile where
  opt_level : String
  test : Bool
deriving DecidableEq

/-- One compiler-artifact record from the cargo JSON stream. -/
structure CargoArtifact where
  package_id : PackageId
  target : Target
  profile : ArtifactProfile
  features : List String
  filenames : List String
  executable : Option String
  fresh : Bool
deriving DecidableEq

/-- One message of the cargo stdout stream, after envelope demultiplexing. -/
inductive Message where
  | compilerMessage (payload : String)
  | compilerArtifact (art : CargoArtifact)
  | other
deriving DecidableEq

/-- Like a cargo artifact, but always has an executable (src/lib.rs). -/
structure ExecutableArtifact where
  package_id : PackageId
  target : Target
  profile : ArtifactProfile
  features : List String
  filenames : List String
  executable : String
  fresh : Bool
deriving DecidableEq

/-- ExecutableArtifact::maybe_from (src/lib.rs lines 139-162). -/
def ExecutableArtifact.maybe_from (art : CargoArtifact) : Option ExecutableArtifact :=
  match art.executable with
  | none => none
  | some exe =>
    some { package_id := art.package_id, target := art.target, profile := art.profile,
           features := art.features, filenames := art.filenames, executable := exe,
           fresh := art.fresh }

/-- PackageSpec (src/lib.rs lines 164-201). -/
inductive PackageSpec where
  | Any
  | Name (name : String)
  | Id (id : PackageId)
deriving DecidableEq

/-- PackageSpec::ANY_REPR. -/
def PackageSpec.ANY_REPR : String := "*"

/-- PackageSpec::as_repr. -/
def PackageSpec.as_repr : PackageSpec → String
  | .Any => PackageSpec.ANY_REPR
  | .Name r => r
  | .Id i => i.repr

/-- FeatureSpecInner (src/lib.rs lines 213-220). -/
inductive FeatureSpecInner where
  | Subset (include_default : Bool) (features : List String)
  | All
deriving DecidableEq

/-- FeatureSpec, a newtype over FeatureSpecInner. -/
structure FeatureSpec where
  inner : FeatureSpecInner
deriving DecidableEq

/-- FeatureSpec::new. -/
def FeatureSpec.new (features : List String) : FeatureSpec :=
  ⟨.Subset true features⟩

/-- FeatureSpec::new_no_default. -/
def FeatureSpec.new_no_default (features : List String) : FeatureSpec :=
  ⟨.Subset false features⟩

/-- FeatureSpec::all. -/
def FeatureSpec.all : FeatureSpec := ⟨.All⟩

/-- FeatureSpec::to_args (src/lib.rs lines 272-290): push --features with the
comma-joined list when the list is nonempty, then --no-default-features when
default features are excluded; All yields only --all-features. -/
def FeatureSpec.to_args (s : FeatureSpec) : List String :=
  match s.inner with
  | .All => ["--all-features"]
  | .Subset include_default features =>
    (if features.isEmpty then [] else ["--features", String.intercalate "," features])
      ++ (if include_default then [] else ["--no-default-features"])

/-- MSG_FORMAT constant (src/lib.rs line 116). -/
def MSG_FORMAT : String := "--message-format=json-diagnostic-rendered-ansi"

/-- BuildError (src/lib.rs lines 304-314). The io::Error payload is modelled
as its message string. -/
inductive BuildError where
  | RunCargo (err : String)
  | NotFound (name : String)
  | PackageNotFound (spec : String)
  | Cargo (stderr : String)
deriving DecidableEq

/-! Regex embedding. The two stderr classification regexes are embedded as
character-list scanners with the same semantics: leftmost match, greedy
word-run for the backslash-w-plus part, lazy capture up to the closing
literal, with the dot metacharacter excluding the newline character. -/

/-- A word character for the regex backslash-w class (modelled as
alphanumeric or underscore). -/
def isWordChar (c : Char) : Bool :=
  c.isAlphanum || c = '_'

/-- Consume a literal: returns the remainder when lit is a leading run of s. -/
def matchLiteral : List Char → List Char → Option (List Char)
  | [], rest => some rest
  | _ :: _, [] => none
  | p :: ps, c :: cs => if c = p then matchLiteral ps cs else none

/-- Take the maximal leading run of word characters. -/
def takeWordRun : List Char → List Char × List Char
  | [] => ([], [])
  | c :: cs =>
    if isWordChar c then
      let (w, rest) := takeWordRun cs
      (c :: w, rest)
    else ([], c :: cs)

/-- Lazy capture: the shortest run of non-newline characters followed by the
closing literal, returning the capture and the remainder after the literal. -/
def lazyCaptureTo (closing : List Char) : List Char → Option (List Char × List Char)
  | [] =>
    match matchLiteral closing [] with
    | some after => some ([], after)
    | none => none
  | c :: cs =>
    match matchLiteral closing (c :: cs) with
    | some after => some ([], after)
    | none =>
      if c = '\n' then none
      else
        match lazyCaptureTo closing cs with
        | some (cap, after) => some (c :: cap, after)
        | none => none

/-- Match the NOT_FOUND_RE regex at the start of s and return the capture:
literal "error: no ", a nonempty word run, literal " target named",
a backquote, then a lazy capture up to the closing backquote. -/
def notFoundAt (s : List Char) : Option (List Char) :=
  match matchLiteral "error: no ".data s with
  | none => none
  | some rest =>
    let (w, rest2) := takeWordRun rest
    if w.isEmpty then none
    else
      match matchLiteral " target named \x60".data rest2 with
      | none => none
      | some rest3 =>
        match lazyCaptureTo "\x60".data rest3 with
        | some (cap, _) => some cap
        | none => none

/-- Match the PKG_NOT_FOUND_RE regex at the start of s and return the capture:
the opening literal, then a lazy capture up to the closing literal. -/
def pkgNotFoundAt (s : List Char) : Option (List Char) :=
  match matchLiteral "error: package ID specification \x60".data s with
  | none => none
  | some rest =>
    match lazyCaptureTo "\x60 did not match any packages".data rest with
    | some (cap, _) => some cap
    | none => none

/-- Unanchored leftmost search: try the position matcher at every suffix,
leftmost first. -/
def findCapture (f : List Char → Option (List Char)) : List Char → Option (List Char)
  | [] => f []
  | c :: cs =>
    match f (c :: cs) with
    | some cap => some cap
    | none => findCapture f cs

/-- BuildError::from_stderr (src/lib.rs lines 317-343). The stderr read is
abstracted as an Except value: an IO failure carries the error message. -/
def BuildError.from_stderr (stderrRead : Except String String) : BuildError :=
  match stderrRead with
  | .error err => .RunCargo err
  | .ok buf =>
    match findCapture notFoundAt buf.data with
    | some n => .NotFound (String.mk n)
    | none =>
      match findCapture pkgNotFoundAt buf.data with
      | some p => .PackageNotFound (String.mk p)
      | none => .Cargo buf

/-- The compiler-artifact records of a stream that carry an executable path,
in stream order (specification-side helper). -/
def execArtifacts : List Message → List CargoArtifact
  | [] => []
  | .compilerArtifact art :: rest =>
    if art.executable.isSome then art :: execArtifacts rest else execArtifacts rest
  | _ :: rest => execArtifacts rest

namespace bin

/-- bin::Compiler (src/bin.rs lines 29-41). The compiler-message callback is
omitted: it only forwards diagnostics and never affects the result. -/
structure Compiler where
  workspace : Option String
  package : PackageSpec
  name : String
  is_example : Bool
  target_dir : Option String
  features : Option FeatureSpec
  is_release : Bool
deriving DecidableEq

/-- bin::Compiler::new (src/bin.rs lines 61-72). -/
def Compiler.new (name : String) (is_example : Bool) : Compiler :=
  { workspace := none, package := .Any, name := name, is_example := is_example,
    target_dir := none, features := none, is_release := false }

/-- bin::Compiler::bin. -/
def Compiler.bin (name : String) : Compiler := Compiler.new name false

/-- bin::Compiler.example builder (src/bin.rs lines 55-59). -/
def Compiler.example (name : String) : Compiler := Compiler.new name true

/-- The cargo argument vector assembled by bin::Compiler::compile
(src/bin.rs lines 124-153), in push order. -/
def Compiler.args (c : Compiler) : List String :=
  ["build", MSG_FORMAT, "--package", c.package.as_repr]
    ++ (match c.features with | some f => f.to_args | none => [])
    ++ (if c.is_release then ["--release"] else [])
    ++ (match c.target_dir with | some d => ["--target-dir", d] | none => [])
    ++ (if c.is_example then ["--example", c.name] else ["--bin", c.name])

/-- Outcome of bin::Compiler::compile, with panics made explicit. -/
inductive BinOutcome where
  | ok (art : ExecutableArtifact)
  | err (e : BuildError)
  | panicked (msg : String)
deriving DecidableEq

/-- Whether an outcome is the Ok case. -/
def BinOutcome.isOk : BinOutcome → Bool
  | .ok _ => true
  | _ => false

/-- Message of the assert in the message loop (src/bin.rs lines 172-175). -/
def binAssertMsg : String :=
  "Expected cargo build with --bin or --example to only produce one executable"

/-- Message of the expect after a successful exit (src/bin.rs line 184). -/
def binExpectMsg : String :=
  "If cargo build exits with success should have built an executable"

/-- Message of the expect around maybe_from (src/bin.rs line 185). -/
def binExpectExecMsg : String := "Artifact has executable"

/-- The message loop of bin::Compiler::compile (src/bin.rs lines 160-180):
skip artifacts without an executable, assert that at most one remains. -/
def binCollect : List Message → Option CargoArtifact → Except String (Option CargoArtifact)
  | [], acc => .ok acc
  | .compilerArtifact art :: rest, acc =>
    if art.executable.isNone then binCollect rest acc
    else
      match acc with
      | some _ => .error binAssertMsg
      | none => binCollect rest (some art)
  | .compilerMessage _ :: rest, acc => binCollect rest acc
  | .other :: rest, acc => binCollect rest acc

/-- bin::Compiler::compile after the spawn (src/bin.rs lines 155-189): the
message loop runs first (its assert fires regardless of exit status), then a
successful exit demands an artifact and converts it, and a failing exit is
classified from stderr. -/
def Compiler.compile (_c : Compiler) (msgs : List Message) (exitSuccess : Bool)
    (stderrRead : Except String String) : BinOutcome :=
  match binCollect msgs none with
  | .error m => .panicked m
  | .ok acc =>
    if exitSuccess then
      match acc with
      | none => .panicked binExpectMsg
      | some art =>
        match ExecutableArtifact.maybe_from art with
        | some ea => .ok ea
        | none => .panicked binExpectExecMsg
    else .err (BuildError.from_stderr stderrRead)

end bin

/-! Line discipline of the Rust str lines iterator, on character lists:
split at every newline, drop a final empty piece (the optional trailing
line ending), and strip one carriage return from the end of every piece
that was terminated by a newline. -/

/-- Split a character list at every newline; the newline characters are
consumed and every boundary yields a piece, so the result is nonempty. -/
def splitOnNewline : List Char → List (List Char)
  | [] => [[]]
  | c :: cs =>
    if c = '\n' then [] :: splitOnNewline cs
    else
      match splitOnNewline cs with
      | [] => [[c]]
      | l :: ls => (c :: l) :: ls

/-- Strip one trailing carriage return. -/
def stripCR (l : List Char) : List Char :=
  match l.getLast? with
  | some c => if c = '\r' then l.dropLast else l
  | none => l

/-- Post-process the split pieces: every piece except the last was terminated
by a newline and loses a trailing carriage return; a final empty piece is
dropped. -/
def linesMap : List (List Char) → List (List Char)
  | [] => []
  | [last] => if last.isEmpty then [] else [last]
  | piece :: rest => stripCR piece :: linesMap rest

/-- The lines iterator over a stdout text. -/
def rustLines (s : List Char) : List (List Char) :=
  linesMap (splitOnNewline s)

namespace test

/-- test::NameSpec (src/test.rs lines 104-114). -/
inductive NameSpec where
  | Exact (name : String)
  | Substring (name : String)
  | Any
deriving DecidableEq

/-- NameSpec::exact_run_args (src/test.rs lines 137-139). -/
def NameSpec.exact_run_args (name : String) : List String :=
  ["--exact", name]

/-- NameSpec::run_args (src/test.rs lines 129-135). -/
def NameSpec.run_args : NameSpec → List String
  | .Exact name => NameSpec.exact_run_args name
  | .Substring name => [name]
  | .Any => []

/-- test::TestFnType (src/test.rs lines 86-93). -/
inductive TestFnType where
  | Test
  | Bench
deriving DecidableEq

/-- test::TestFn (src/test.rs lines 66-74). -/
structure TestFn where
  name : String
  test_type : TestFnType
deriving DecidableEq

/-- TestFn::run_args (src/test.rs lines 76-83). -/
def TestFn.run_args (t : TestFn) : List String :=
  NameSpec.exact_run_args t.name

/-- test::TypeSpec (src/test.rs lines 142-167). -/
inductive TypeSpec where
  | Lib
  | Bin (name : String)
  | Bins
  | Integration (name : String)
  | Integrations
  | Example (name : String)
  | Examples
  | Doc
  | All
deriving DecidableEq

/-- test::Artifact (src/test.rs lines 46-55). -/
structure Artifact where
  artifact : ExecutableArtifact
  tests : List TestFn
  name_spec : NameSpec
deriving DecidableEq

/-- Artifact::run_args (src/test.rs lines 57-64). -/
def Artifact.run_args (a : Artifact) : List String :=
  a.name_spec.run_args

/-- test::Compiler (src/test.rs lines 32-44), without the message callback. -/
structure Compiler where
  target_dir : Option String
  workspace : Option String
  package : PackageSpec
  name : NameSpec
  test_type : TypeSpec
  features : Option FeatureSpec
  is_release : Bool
deriving DecidableEq

/-- test::Compiler::new (src/test.rs lines 189-203). -/
def Compiler.new (name : NameSpec) (test_type : TypeSpec) : Compiler :=
  { workspace := none, package := .Any, name := name, target_dir := none,
    test_type := test_type, features := none, is_release := false }

/-- The cargo argument vector assembled by artifacts_ignoring_name
(src/test.rs lines 299-335), in push order. -/
def Compiler.args (c : Compiler) : List String :=
  ["test", "--no-run", MSG_FORMAT, "--package", c.package.as_repr]
    ++ (match c.features with | some f => f.to_args | none => [])
    ++ (if c.is_release then ["--release"] else [])
    ++ (match c.target_dir with | some d => ["--target-dir", d] | none => [])
    ++ (match c.test_type with
        | .Lib => ["--lib"]
        | .Bin name => ["--bin", name]
        | .Bins => ["--bins"]
        | .Integration name => ["--test", name]
        | .Integrations => ["--test", "*"]
        | .Doc => ["--doc"]
        | .Example name => ["--example", name]
        | .Examples => ["--examples"]
        | .All => [])

/-- test::Error (src/test.rs lines 402-413), io::Error as message string. -/
inductive Error where
  | Build (e : BuildError)
  | Execute (err : String)
  | Libtest (stderr : String)
  | Parse (got : String)
deriving DecidableEq

/-- The LINE_RE capture groups: the greedy name group makes the split happen
at the last colon-space occurrence of the line; the kind group is the rest. -/
def splitAtLastSep : List Char → Option (List Char × List Char)
  | [] => none
  | c :: cs =>
    match splitAtLastSep cs with
    | some (n, t) => some (c :: n, t)
    | none =>
      if c = ':' then
        match cs with
        | ' ' :: rest => some ([], rest)
        | _ => none
      else none

/-- Whether a colon-space separator occurs anywhere in the list. -/
def containsSep : List Char → Bool
  | [] => false
  | [_] => false
  | a :: b :: rest => (a = ':' && b = ' ') || containsSep (b :: rest)

/-- Apply LINE_RE to one line: the dot metacharacter excludes newlines, so a
line containing one cannot match; otherwise the groups split the line at the
last colon-space occurrence. -/
def lineCaptures (line : List Char) : Option (List Char × List Char) :=
  if line.contains '\n' then none else splitAtLastSep line

/-- The loop body sequence of parse_libtest_stdout (src/test.rs lines
381-398): a line that fails LINE_RE aborts with a Parse error carrying the
full stdout; kind test and benchmark are collected in order; any other kind
skips the line. -/
def parseLines (stdout : String) : List (List Char) → Except Error (List TestFn)
  | [] => .ok []
  | line :: rest =>
    match lineCaptures line with
    | none => .error (.Parse stdout)
    | some (n, t) =>
      if String.mk t = "test" then
        match parseLines stdout rest with
        | .error e => .error e
        | .ok tests => .ok ({ name := String.mk n, test_type := .Test } :: tests)
      else if String.mk t = "benchmark" then
        match parseLines stdout rest with
        | .error e => .error e
        | .ok tests => .ok ({ name := String.mk n, test_type := .Bench } :: tests)
      else parseLines stdout rest

/-- parse_libtest_stdout (src/test.rs lines 372-400). -/
def parse_libtest_stdout (stdout : String) : Except Error (List TestFn) :=
  parseLines stdout (rustLines stdout.data)

/-- Specification-side description of one line of the listing: kind test
yields a Test unit, kind benchmark a Bench unit, anything else nothing. -/
def lineToTestFn (line : List Char) : Option TestFn :=
  match lineCaptures line with
  | none => none
  | some (n, t) =>
    if String.mk t = "test" then some { name := String.mk n, test_type := .Test }
    else if String.mk t = "benchmark" then some { name := String.mk n, test_type := .Bench }
    else none

/-- The message loop of artifacts_ignoring_name (src/test.rs lines 342-362):
keep artifacts compiled in the test profile that convert to executables. -/
def testCollect : List Message → List ExecutableArtifact
  | [] => []
  | .compilerArtifact art :: rest =>
    if art.profile.test = false then testCollect rest
    else
      match ExecutableArtifact.maybe_from art with
      | some ea => ea :: testCollect rest
      | none => testCollect rest
  | .compilerMessage _ :: rest => testCollect rest
  | .other :: rest => testCollect rest

/-- Specification-side description of the retained artifacts: exactly the
stream records whose test-profile flag is set and whose executable path is
present, converted, in stream order. -/
def testArtifactsSpec (msgs : List Message) : List ExecutableArtifact :=
  msgs.filterMap fun m =>
    match m with
    | .compilerArtifact art =>
      if art.profile.test then ExecutableArtifact.maybe_from art else none
    | _ => none

/-- artifacts_ignoring_name after the spawn (src/test.rs lines 337-368). -/
def Compiler.artifacts_ignoring_name (_c : Compiler) (msgs : List Message)
    (exitSuccess : Bool) (stderrRead : Except String String) :
    Except BuildError (List ExecutableArtifact) :=
  let arts := testCollect msgs
  if exitSuccess then .ok arts else .error (BuildError.from_stderr stderrRead)

/-- Observed behavior of one listing invocation of a built test binary:
exit status, the utf-8 decode of its stdout (a decode failure carries the
lossy rendition), and the lossy rendition of its stderr. -/
structure ListingOut where
  success : Bool
  stdoutDecoded : Except String String
  stderrLossy : String

/-- get_artifact_tests after the spawn (src/test.rs lines 262-295): a failing
listing exit yields Libtest with stderr, a stdout decode failure yields Parse
with the lossy bytes, and otherwise the parsed units are paired with the
artifact and the originating name spec. -/
def Compiler.get_artifact_tests (c : Compiler) (art : ExecutableArtifact)
    (out : ListingOut) : Except Error Artifact :=
  if out.success = false then .error (.Libtest out.stderrLossy)
  else
    match out.stdoutDecoded with
    | .error lossy => .error (.Parse lossy)
    | .ok stdout =>
      match parse_libtest_stdout stdout with
      | .error e => .error e
      | .ok tests => .ok { artifact := art, tests := tests, name_spec := c.name }

/-- The collect of a Result iterator: first error aborts, otherwise the list
of successes in order. -/
def collectResults {α β : Type} (f : α → Except Error β) : List α → Except Error (List β)
  | [] => .ok []
  | a :: rest =>
    match f a with
    | .error e => .error e
    | .ok b =>
      match collectResults f rest with
      | .error e => .error e
      | .ok bs => .ok (b :: bs)

/-- test::Compiler::compile (src/test.rs lines 252-259): build the artifacts,
then run each one for its listing; the listing behavior of each built binary
is abstracted as a function from the artifact to its observed output. -/
def Compiler.compile (c : Compiler) (msgs : List Message) (exitSuccess : Bool)
    (stderrRead : Except String String) (runner : ExecutableArtifact → ListingOut) :
    Except Error (List Artifact) :=
  match c.artifacts_ignoring_name msgs exitSuccess stderrRead with
  | .error e => .error (.Build e)
  | .ok arts => collectResults (fun a => c.get_artifact_tests a (runner a)) arts

end test

/-! Helper lemmas about the bin message loop. -/

/-- A stream with no executable-bearing artifact leaves the accumulator. -/
theorem binCollect_of_no_exec :
    ∀ (msgs : List Message) (acc : Option CargoArtifact),
      execArtifacts msgs = [] → bin.binCollect msgs acc = .ok acc := by
  intro msgs
  induction msgs with
  | nil => intro acc _; rfl
  | cons m rest ih =>
    intro acc h
    cases m with
    | compilerMessage p =>
      simp only [execArtifacts] at h
      simpa [bin.binCollect] using ih acc h
    | other =>
      simp only [execArtifacts] at h
      simpa [bin.binCollect] using ih acc h
    | compilerArtifact art =>
      cases hexe : art.executable with
      | none =>
        simp only [execArtifacts, hexe, Option.isSome_none, Bool.false_eq_true,
          if_false] at h
        simpa [bin.binCollect, hexe] using ih acc h
      | some exe =>
        exfalso
        simp [execArtifacts, hexe] at h

/-- Once the accumulator is filled, any further executable-bearing artifact
fires the assert. -/
theorem binCollect_some_of_exec :
    ∀ (msgs : List Message) (x : CargoArtifact),
      1 ≤ (execArtifacts msgs).length →
      bin.binCollect msgs (some x) = .error bin.binAssertMsg := by
  intro msgs
  induction msgs with
  | nil => intro x h; simp [execArtifacts] at h
  | cons m rest ih =>
    intro x h
    cases m with
    | compilerMessage p =>
      simp only [execArtifacts] at h
      simpa [bin.binCollect] using ih x h
    | other =>
      simp only [execArtifacts] at h
      simpa [bin.binCollect] using ih x h
    | compilerArtifact art =>
      cases hexe : art.executable with
      | none =>
        simp only [execArtifacts, hexe, Option.isSome_none, Bool.false_eq_true,
          if_false] at h
        simpa [bin.binCollect, hexe] using ih x h
      | some exe =>
        simp [bin.binCollect, hexe]

/-- A stream with exactly one executable-bearing artifact accumulates it. -/
theorem binCollect_single :
    ∀ (msgs : List Message) (art : CargoArtifact),
      execArtifacts msgs = [art] → bin.binCollect msgs none = .ok (some art) := by
  intro msgs
  induction msgs with
  | nil => intro art h; simp [execArtifacts] at h
  | cons m rest ih =>
    intro art h
    cases m with
    | compilerMessage p =>
      simp only [execArtifacts] at h
      simpa [bin.binCollect] using ih art h
    | other =>
      simp only [execArtifacts] at h
      simpa [bin.binCollect] using ih art h
    | compilerArtifact a =>
      cases hexe : a.executable with
      | none =>
        simp only [execArtifacts, hexe, Option.isSome_none, Bool.false_eq_true,
          if_false] at h
        simpa [bin.binCollect, hexe] using ih art h
      | some exe =>
        simp only [execArtifacts, hexe, Option.isSome_some, if_true,
          List.cons.injEq] at h
        obtain ⟨rfl, hrest⟩ := h
        have hdone := binCollect_of_no_exec rest (some a) hrest
        simp [bin.binCollect, hexe, hdone]

/-- A stream with two or more executable-bearing artifacts fires the assert
starting from an empty accumulator. -/
theorem binCollect_multi :
    ∀ (msgs : List Message),
      2 ≤ (execArtifacts msgs).length →
      bin.binCollect msgs none = .error bin.binAssertMsg := by
  intro msgs
  induction msgs with
  | nil => intro h; simp [execArtifacts] at h
  | cons m rest ih =>
    intro h
    cases m with
    | compilerMessage p =>
      simp only [execArtifacts] at h
      simpa [bin.binCollect] using ih h
    | other =>
      simp only [execArtifacts] at h
      simpa [bin.binCollect] using ih h
    | compilerArtifact a =>
      cases hexe : a.executable with
      | none =>
        simp only [execArtifacts, hexe, Option.isSome_none, Bool.false_eq_true,
          if_false] at h
        simpa [bin.binCollect, hexe] using ih h
      | some exe =>
        simp only [execArtifacts, hexe, Option.isSome_some, if_true,
          List.length_cons] at h
        have hrest : 1 ≤ (execArtifacts rest).length := by omega
        simp [bin.binCollect, hexe, binCollect_some_of_exec rest a hrest]

/-! Fixtures for the bin compile claims. -/

/-- A concrete executable-bearing artifact record. -/
def binFixtureArt1 : CargoArtifact :=
  { package_id := { repr := "hello_world 0.1.0 (path+file:///w)" },
    target := { name := "hello_world", src_path := "src/main.rs" },
    profile := { opt_level := "0", test := false },
    features := [], filenames := ["target/debug/hello_world"],
    executable := some "target/debug/hello_world", fresh := false }

/-- A second concrete executable-bearing artifact record. -/
def binFixtureArt2 : CargoArtifact :=
  { package_id := { repr := "hello_world 0.1.0 (path+file:///w)" },
    target := { name := "bin_2", src_path := "src/bin/bin_2.rs" },
    profile := { opt_level := "0", test := false },
    features := [], filenames := ["target/debug/bin_2"],
    executable := some "target/debug/bin_2", fresh := true }

/-- A concrete artifact record without an executable path. -/
def binFixtureNoExec : CargoArtifact :=
  { package_id := { repr := "hello_world 0.1.0 (path+file:///w)" },
    target := { name := "hello_world", src_path := "src/lib.rs" },
    profile := { opt_level := "0", test := false },
    features := [], filenames := ["target/debug/libhello_world.rlib"],
    executable := none, fresh := false }

/-- Claim C1, counterexample to the claim as stated: a successful build whose
message stream carries at least one (here: two) executable-bearing
compiler-artifact records does not return Ok; the assert fires instead. -/
theorem bin_compile_two_exec_artifacts_not_ok :
    1 ≤ (execArtifacts [Message.compilerArtifact binFixtureArt1,
          Message.compilerArtifact binFixtureArt2]).length
    ∧ ((bin.Compiler.bin "hello_world").compile
        [Message.compilerArtifact binFixtureArt1, Message.compilerArtifact binFixtureArt2]
        true (.ok "")).isOk = false
    ∧ (bin.Compiler.bin "hello_world").compile
        [Message.compilerArtifact binFixtureArt1, Message.compilerArtifact binFixtureArt2]
        true (.ok "") = .panicked bin.binAssertMsg := by
  refine ⟨by decide, by decide, by decide⟩

/-- Claim C1 (amended): for every single-executable build request whose cargo
subprocess exits with success and whose stdout message stream contains exactly
one compiler-artifact record carrying an executable path, compile returns Ok
with exactly one ExecutableArtifact whose package id, target, profile,
features, filenames, executable path and fresh flag equal the corresponding
fields of that record. -/
theorem bin_compile_unique_exec_artifact_ok
    (c : bin.Compiler) (msgs : List Message) (stderrRead : Except String String)
    (art : CargoArtifact) (exe : String)
    (hone : execArtifacts msgs = [art]) (hexe : art.executable = some exe) :
    c.compile msgs true stderrRead =
      .ok { package_id := art.package_id, target := art.target, profile := art.profile,
            features := art.features, filenames := art.filenames, executable := exe,
            fresh := art.fresh } := by
  simp only [bin.Compiler.compile, binCollect_single msgs art hone]
  simp [ExecutableArtifact.maybe_from, hexe]

/-- Claim C1, witness: the amended theorem applied to a concrete stream with
one diagnostic, one non-executable artifact, and one executable artifact. -/
theorem bin_compile_unique_exec_artifact_ok_witness :
    (bin.Compiler.bin "hello_world").compile
        [Message.compilerMessage "warning: unused variable",
         Message.compilerArtifact binFixtureNoExec,
         Message.compilerArtifact binFixtureArt1]
        true (.ok "") =
      .ok { package_id := binFixtureArt1.package_id, target := binFixtureArt1.target,
            profile := binFixtureArt1.profile, features := binFixtureArt1.features,
            filenames := binFixtureArt1.filenames,
            executable := "target/debug/hello_world", fresh := binFixtureArt1.fresh } :=
  bin_compile_unique_exec_artifact_ok (bin.Compiler.bin "hello_world")
    [Message.compilerMessage "warning: unused variable",
     Message.compilerArtifact binFixtureNoExec,
     Message.compilerArtifact binFixtureArt1]
    (.ok "") binFixtureArt1 "target/debug/hello_world" (by decide) (by decide)

/-- Claim C7: a stream with more than one executable-bearing compiler-artifact
record makes bin compile end in the assert panic (not a recoverable error),
and with at most one such record the assert branch is unreachable. -/
theorem bin_compile_assert_iff_multiple :
    (∀ (c : bin.Compiler) (msgs : List Message) (exitSuccess : Bool)
        (r : Except String String),
      2 ≤ (execArtifacts msgs).length →
      c.compile msgs exitSuccess r = .panicked bin.binAssertMsg)
    ∧ (∀ (c : bin.Compiler) (msgs : List Message) (exitSuccess : Bool)
        (r : Except String String),
      (execArtifacts msgs).length ≤ 1 →
      c.compile msgs exitSuccess r ≠ .panicked bin.binAssertMsg) := by
  constructor
  · intro c msgs exitSuccess r h
    simp [bin.Compiler.compile, binCollect_multi msgs h]
  · intro c msgs exitSuccess r h
    have hok : ∃ acc, bin.binCollect msgs none = .ok acc := by
      cases hl : execArtifacts msgs with
      | nil => exact ⟨none, binCollect_of_no_exec msgs none hl⟩
      | cons a tail =>
        have htail : tail = [] := by
          rw [hl] at h
          simp only [List.length_cons] at h
          exact List.eq_nil_of_length_eq_zero (by omega)
        exact ⟨some a, binCollect_single msgs a (by rw [hl, htail])⟩
    obtain ⟨acc, hacc⟩ := hok
    simp only [bin.Compiler.compile, hacc]
    cases exitSuccess with
    | false => simp
    | true =>
      cases acc with
      | none => simp; decide
      | some art =>
        cases hm : ExecutableArtifact.maybe_from art with
        | none => simp [hm]; decide
        | some ea => simp [hm]

/-- Claim C7, witness: the theorem applied to a concrete two-artifact stream
(assert fires) and to a concrete one-artifact stream (assert unreachable). -/
theorem bin_compile_assert_iff_multiple_witness :
    (bin.Compiler.bin "hello_world").compile
        [Message.compilerArtifact binFixtureArt1, Message.compilerArtifact binFixtureArt2]
        false (.ok "boom") = .panicked bin.binAssertMsg
    ∧ (bin.Compiler.bin "hello_world").compile
        [Message.compilerArtifact binFixtureArt1]
        true (.ok "") ≠ .panicked bin.binAssertMsg :=
  ⟨bin_compile_assert_iff_multiple.1 (bin.Compiler.bin "hello_world")
      [Message.compilerArtifact binFixtureArt1, Message.compilerArtifact binFixtureArt2]
      false (.ok "boom") (by decide),
   bin_compile_assert_iff_multiple.2 (bin.Compiler.bin "hello_world")
      [Message.compilerArtifact binFixtureArt1]
      true (.ok "") (by decide)⟩

/-- The test message loop equals the specification-side filter. -/
theorem testCollect_eq_spec :
    ∀ msgs : List Message, test.testCollect msgs = test.testArtifactsSpec msgs := by
  intro msgs
  induction msgs with
  | nil => rfl
  | cons m rest ih =>
    cases m with
    | compilerMessage p => simpa [test.testCollect, test.testArtifactsSpec] using ih
    | other => simpa [test.testCollect, test.testArtifactsSpec] using ih
    | compilerArtifact art =>
      cases hp : art.profile.test with
      | false =>
        simp [test.testCollect, test.testArtifactsSpec, hp, ih]
      | true =>
        cases hm : ExecutableArtifact.maybe_from art with
        | none => simp [test.testCollect, test.testArtifactsSpec, hp, hm, ih]
        | some ea => simp [test.testCollect, test.testArtifactsSpec, hp, hm, ih]

/-- Claim C2: on a successful exit the test artifact-collection step returns
Ok with exactly the stream records whose test-profile flag is set and whose
executable path is present, converted in stream order; records lacking either
are dropped without error, and a stream with no such records yields Ok with
the empty list. -/
theorem test_artifacts_success_filter :
    ∀ (c : test.Compiler) (msgs : List Message) (r : Except String String),
      c.artifacts_ignoring_name msgs true r = .ok (test.testArtifactsSpec msgs)
      ∧ (test.testArtifactsSpec msgs = [] →
          c.artifacts_ignoring_name msgs true r = .ok []) := by
  intro c msgs r
  constructor
  · simp [test.Compiler.artifacts_ignoring_name, testCollect_eq_spec]
  · intro hempt
    simp [test.Compiler.artifacts_ignoring_name, testCollect_eq_spec, hempt]

/-- Claim C3: the error classifier maps an I/O failure while reading stderr
to RunCargo with the underlying error; otherwise it applies the no-target
pattern first (NotFound with the captured name), the package-specification
pattern second (PackageNotFound with the captured specification), and falls
back to Cargo carrying the entire stderr text verbatim. -/
theorem from_stderr_classification :
    (∀ e : String, BuildError.from_stderr (.error e) = .RunCargo e)
    ∧ (∀ (buf : String) (n : List Char),
        findCapture notFoundAt buf.data = some n →
        BuildError.from_stderr (.ok buf) = .NotFound (String.mk n))
    ∧ (∀ (buf : String) (p : List Char),
        findCapture notFoundAt buf.data = none →
        findCapture pkgNotFoundAt buf.data = some p →
        BuildError.from_stderr (.ok buf) = .PackageNotFound (String.mk p))
    ∧ (∀ buf : String,
        findCapture notFoundAt buf.data = none →
        findCapture pkgNotFoundAt buf.data = none →
        BuildError.from_stderr (.ok buf) = .Cargo buf) := by
  refine ⟨fun e => rfl, ?_, ?_, ?_⟩
  · intro buf n h
    simp [BuildError.from_stderr, h]
  · intro buf p h1 h2
    simp [BuildError.from_stderr, h1, h2]
  · intro buf h1 h2
    simp [BuildError.from_stderr, h1, h2]

/-- Claim C3, witness: the classifier on a concrete I/O failure, a concrete
no-target message, a concrete package-specification message, and a concrete
unrecognized message. -/
theorem from_stderr_classification_witness :
    BuildError.from_stderr (.error "cargo missing") = .RunCargo "cargo missing"
    ∧ BuildError.from_stderr (.ok "error: no bin target named \x60nope\x60\n") =
        .NotFound (String.mk "nope".data)
    ∧ BuildError.from_stderr
        (.ok "error: package ID specification \x60pkg_x\x60 did not match any packages\n") =
        .PackageNotFound (String.mk "pkg_x".data)
    ∧ BuildError.from_stderr (.ok "error: could not find Cargo.toml") =
        .Cargo "error: could not find Cargo.toml" :=
  ⟨from_stderr_classification.1 "cargo missing",
   from_stderr_classification.2.1 "error: no bin target named \x60nope\x60\n"
     "nope".data (by rfl),
   from_stderr_classification.2.2.1
     "error: package ID specification \x60pkg_x\x60 did not match any packages\n"
     "pkg_x".data (by rfl) (by rfl),
   from_stderr_classification.2.2.2 "error: could not find Cargo.toml"
     (by rfl) (by rfl)⟩

/-- Claim C9: to_args yields --all-features for the all variant; for a subset
it yields --features with the comma-joined list iff the list is nonempty,
then --no-default-features iff default features are excluded; the two empty
corner cases come out as stated. -/
theorem feature_spec_to_args :
    FeatureSpec.to_args ⟨.All⟩ = ["--all-features"]
    ∧ (∀ (include_default : Bool) (features : List String),
        FeatureSpec.to_args ⟨.Subset include_default features⟩ =
          (if features = [] then []
           else ["--features", String.intercalate "," features])
            ++ (if include_default then [] else ["--no-default-features"]))
    ∧ FeatureSpec.to_args ⟨.Subset true []⟩ = []
    ∧ FeatureSpec.to_args ⟨.Subset false []⟩ = ["--no-default-features"] := by
  refine ⟨rfl, ?_, rfl, rfl⟩
  intro include_default features
  cases features <;> cases include_default <;> simp [FeatureSpec.to_args]

/-- Claim C8: the argument vector is, in order, the subcommand, the
json-diagnostic-rendered-ansi message-format flag, the package selector as a
single token (star for Any, the name or full id otherwise), the feature
arguments, --release iff release mode, --target-dir iff an override is set,
and the request-specific selector. -/
theorem cargo_invocation_args :
    (∀ c : bin.Compiler,
      c.args =
        ["build", "--message-format=json-diagnostic-rendered-ansi", "--package",
          (match c.package with
           | .Any => "*"
           | .Name n => n
           | .Id i => i.repr)]
          ++ (match c.features with | some f => f.to_args | none => [])
          ++ (if c.is_release then ["--release"] else [])
          ++ (match c.target_dir with | some d => ["--target-dir", d] | none => [])
          ++ (if c.is_example then ["--example", c.name] else ["--bin", c.name]))
    ∧ (∀ c : test.Compiler,
      c.args =
        ["test", "--no-run", "--message-format=json-diagnostic-rendered-ansi",
          "--package",
          (match c.package with
           | .Any => "*"
           | .Name n => n
           | .Id i => i.repr)]
          ++ (match c.features with | some f => f.to_args | none => [])
          ++ (if c.is_release then ["--release"] else [])
          ++ (match c.target_dir with | some d => ["--target-dir", d] | none => [])
          ++ (match c.test_type with
              | .Lib => ["--lib"]
              | .Bin name => ["--bin", name]
              | .Bins => ["--bins"]
              | .Integration name => ["--test", name]
              | .Integrations => ["--test", "*"]
              | .Doc => ["--doc"]
              | .Example name => ["--example", name]
              | .Examples => ["--examples"]
              | .All => [])) := by
  constructor
  · intro c
    obtain ⟨ws, pkg, nm, isex, td, feat, rel⟩ := c
    cases pkg <;> rfl
  · intro c
    obtain ⟨td, ws, pkg, nm, tt, feat, rel⟩ := c
    cases pkg <;> rfl

/-! Helper lemmas about the listing parser. -/

/-- When every line matches LINE_RE, the parser succeeds and returns exactly
the per-line mapping, in line order. -/
theorem parseLines_ok :
    ∀ (stdout : String) (ls : List (List Char)),
      (∀ l ∈ ls, (test.lineCaptures l).isSome) →
      test.parseLines stdout ls = .ok (ls.filterMap test.lineToTestFn) := by
  intro stdout ls
  induction ls with
  | nil => intro _; rfl
  | cons line rest ih =>
    intro h
    have hline := h line (by simp)
    have hrest : ∀ l ∈ rest, (test.lineCaptures l).isSome :=
      fun l hl => h l (by simp [hl])
    obtain ⟨⟨n, t⟩, hc⟩ := Option.isSome_iff_exists.mp hline
    by_cases ht : String.mk t = "test"
    · simp [test.parseLines, test.lineToTestFn, hc, ht, ih hrest]
    · by_cases hb : String.mk t = "benchmark"
      · simp [test.parseLines, test.lineToTestFn, hc, ht, hb, ih hrest]
      · simp [test.parseLines, test.lineToTestFn, hc, ht, hb, ih hrest]

/-- When some line fails LINE_RE, the parser fails with a Parse error
carrying the full stdout text. -/
theorem parseLines_err :
    ∀ (stdout : String) (ls : List (List Char)),
      (∃ l ∈ ls, test.lineCaptures l = none) →
      test.parseLines stdout ls = .error (.Parse stdout) := by
  intro stdout ls
  induction ls with
  | nil => rintro ⟨l, hl, _⟩; simp at hl
  | cons line rest ih =>
    rintro ⟨l, hl, hnone⟩
    rcases List.mem_cons.mp hl with rfl | hmem
    · simp [test.parseLines, hnone]
    · cases hc : test.lineCaptures line with
      | none => simp [test.parseLines, hc]
      | some nt =>
        obtain ⟨n, t⟩ := nt
        have hrec := ih ⟨l, hmem, hnone⟩
        by_cases ht : String.mk t = "test"
        · simp [test.parseLines, hc, ht, hrec]
        · by_cases hb : String.mk t = "benchmark"
          · simp [test.parseLines, hc, ht, hb, hrec]
          · simp [test.parseLines, hc, ht, hb, hrec]

/-- Claim C4: if any stdout line fails the two-field grammar the whole result
is one Parse error carrying the complete original stdout text, and if every
line matches the result is Ok. -/
theorem parse_libtest_stdout_all_or_nothing :
    ∀ stdout : String,
      ((∃ l ∈ rustLines stdout.data, test.lineCaptures l = none) →
        test.parse_libtest_stdout stdout = .error (.Parse stdout))
      ∧ ((∀ l ∈ rustLines stdout.data, (test.lineCaptures l).isSome) →
        ∃ ts, test.parse_libtest_stdout stdout = .ok ts) := by
  intro stdout
  exact ⟨fun h => parseLines_err stdout _ h, fun h => ⟨_, parseLines_ok stdout _ h⟩⟩

/-- Claim C4, witness: a stdout with one grammar-violating line fails with
the full text, and a fully matching stdout succeeds. -/
theorem parse_libtest_stdout_all_or_nothing_witness :
    test.parse_libtest_stdout "good: test\nbad line\n" =
      .error (.Parse "good: test\nbad line\n")
    ∧ ∃ ts, test.parse_libtest_stdout "a: test\nb: benchmark\n" = .ok ts :=
  ⟨(parse_libtest_stdout_all_or_nothing "good: test\nbad line\n").1 (by decide),
   (parse_libtest_stdout_all_or_nothing "a: test\nb: benchmark\n").2 (by decide)⟩

/-- Claim C5: when every line matches the grammar, parsing succeeds and
returns, in line order, a Test unit per line of kind test and a Bench unit
per line of kind benchmark, silently skipping every other kind. -/
theorem parse_libtest_stdout_kind_mapping :
    ∀ stdout : String,
      (∀ l ∈ rustLines stdout.data, (test.lineCaptures l).isSome) →
      test.parse_libtest_stdout stdout =
        .ok ((rustLines stdout.data).filterMap test.lineToTestFn) :=
  fun stdout h => parseLines_ok stdout _ h

/-- Claim C5, witness: a listing with a test line, an unrecognized-kind line
and a benchmark line yields exactly the two representable units in order. -/
theorem parse_libtest_stdout_kind_mapping_witness :
    test.parse_libtest_stdout "tests::a: test\nskipped: ignored\nb: benchmark\n" =
      .ok [{ name := "tests::a", test_type := .Test },
           { name := "b", test_type := .Bench }] :=
  (parse_libtest_stdout_kind_mapping "tests::a: test\nskipped: ignored\nb: benchmark\n"
    (by decide)).trans (by rfl)

/-- A list without a match for LINE_RE has no separator occurrence. -/
theorem splitAtLastSep_none :
    ∀ l : List Char, test.splitAtLastSep l = none → test.containsSep l = false := by
  intro l
  induction l with
  | nil => intro _; rfl
  | cons c cs ih =>
    intro h
    cases hrec : test.splitAtLastSep cs with
    | some nt => simp [test.splitAtLastSep, hrec] at h
    | none =>
      simp only [test.splitAtLastSep, hrec] at h
      have hcs := ih hrec
      cases cs with
      | nil => rfl
      | cons b r =>
        by_cases hc : c = ':'
        · subst hc
          by_cases hb : b = ' '
          · subst hb; simp at h
          · simp [test.containsSep, hb, hcs]
        · simp [test.containsSep, hc, hcs]

/-- Dropping the head preserves the absence of a separator. -/
theorem containsSep_tail :
    ∀ (a : Char) (l : List Char),
      test.containsSep (a :: l) = false → test.containsSep l = false := by
  intro a l h
  cases l with
  | nil => rfl
  | cons b r =>
    simp only [test.containsSep, Bool.or_eq_false_iff] at h
    exact h.2

/-- Claim C10: a line matched by LINE_RE splits at the last colon-space
occurrence: the line is the name, the separator, then the kind, and the kind
never contains the separator (so everything before the final separator,
which may itself contain one, is the name). -/
theorem split_at_last_sep_greedy :
    ∀ (line n t : List Char),
      test.splitAtLastSep line = some (n, t) →
      line = n ++ ':' :: ' ' :: t ∧ test.containsSep t = false := by
  intro line
  induction line with
  | nil => intro n t h; simp [test.splitAtLastSep] at h
  | cons c cs ih =>
    intro n t h
    cases hrec : test.splitAtLastSep cs with
    | some nt =>
      obtain ⟨n', t'⟩ := nt
      simp only [test.splitAtLastSep, hrec, Option.some.injEq, Prod.mk.injEq] at h
      obtain ⟨hn, ht⟩ := h
      obtain ⟨h1, h2⟩ := ih n' t' hrec
      subst hn
      subst ht
      exact ⟨by rw [h1]; rfl, h2⟩
    | none =>
      simp only [test.splitAtLastSep, hrec] at h
      by_cases hc : c = ':'
      · subst hc
        simp only [if_true] at h
        cases cs with
        | nil => simp at h
        | cons b r =>
          by_cases hb : b = ' '
          · subst hb
            simp only [Option.some.injEq, Prod.mk.injEq] at h
            obtain ⟨hn, ht⟩ := h
            subst hn
            have hfree : test.containsSep r = false :=
              containsSep_tail ' ' r (splitAtLastSep_none _ hrec)
            constructor
            · simp [← ht]
            · rw [← ht]; exact hfree
          · exfalso
            revert h
            simp [hb]
      · simp [hc] at h

/-- Claim C10, witness: the theorem applied to a line with two separator
occurrences; the kind is the text after the final one and the name, which
itself contains a separator, is everything before it. -/
theorem split_at_last_sep_greedy_witness :
    ("a: b: c".data = "a: b".data ++ ':' :: ' ' :: "c".data
      ∧ test.containsSep "c".data = false)
    ∧ test.containsSep "a: b".data = true :=
  ⟨split_at_last_sep_greedy "a: b: c".data "a: b".data "c".data (by rfl), by rfl⟩

/-! Helper lemmas about the collected listing results. -/

/-- Every element of a successfully collected result list comes from some
input element succeeding. -/
theorem collectResults_mem {α β : Type} (f : α → Except test.Error β) :
    ∀ (l : List α) (bs : List β),
      test.collectResults f l = .ok bs → ∀ b ∈ bs, ∃ a ∈ l, f a = .ok b := by
  intro l
  induction l with
  | nil =>
    intro bs h b hb
    simp only [test.collectResults, Except.ok.injEq] at h
    subst h
    simp at hb
  | cons a rest ih =>
    intro bs h b hb
    simp only [test.collectResults] at h
    cases hfa : f a with
    | error e => rw [hfa] at h; simp at h
    | ok b0 =>
      rw [hfa] at h
      cases hrec : test.collectResults f rest with
      | error e => rw [hrec] at h; simp at h
      | ok bs0 =>
        rw [hrec] at h
        simp only [Except.ok.injEq] at h
        subst h
        rcases List.mem_cons.mp hb with rfl | hmem
        · exact ⟨a, by simp, hfa⟩
        · obtain ⟨a0, ha0, hfa0⟩ := ih bs0 hrec b hmem
          exact ⟨a0, by simp [ha0], hfa0⟩

/-- A successful listing result carries the originating name spec. -/
theorem get_artifact_tests_name_spec
    (c : test.Compiler) (art : ExecutableArtifact) (out : test.ListingOut)
    (a : test.Artifact) (h : c.get_artifact_tests art out = .ok a) :
    a.name_spec = c.name := by
  simp only [test.Compiler.get_artifact_tests] at h
  rcases out with ⟨succ, sd, se⟩
  cases succ with
  | false => simp at h
  | true =>
    simp only [Bool.true_eq_false, if_false] at h
    cases sd with
    | error lossy => simp at h
    | ok stdout =>
      simp only at h
      cases hp : test.parse_libtest_stdout stdout with
      | error e => rw [hp] at h; simp at h
      | ok tests =>
        rw [hp] at h
        simp only [Except.ok.injEq] at h
        rw [← h]

/-- Claim C6: the run-argument list is empty for Any, the bare substring for
Substring, and the exact flag plus the name for Exact; every artifact of a
successful test compile retains the originating name spec so that its
run_args equal exactly that list; and the run_args of a single discovered
unit are the exact flag plus the name of that unit. -/
theorem run_args_derivation :
    test.NameSpec.run_args .Any = []
    ∧ (∀ s : String, test.NameSpec.run_args (.Substring s) = [s])
    ∧ (∀ n : String, test.NameSpec.run_args (.Exact n) = ["--exact", n])
    ∧ (∀ (c : test.Compiler) (msgs : List Message) (ex : Bool)
        (r : Except String String) (runner : ExecutableArtifact → test.ListingOut)
        (arts : List test.Artifact) (a : test.Artifact),
        c.compile msgs ex r runner = .ok arts → a ∈ arts →
        a.run_args = c.name.run_args)
    ∧ (∀ t : test.TestFn, t.run_args = ["--exact", t.name]) := by
  refine ⟨rfl, fun s => rfl, fun n => rfl, ?_, fun t => rfl⟩
  intro c msgs ex r runner arts a hok ha
  simp only [test.Compiler.compile] at hok
  cases hart : c.artifacts_ignoring_name msgs ex r with
  | error e => rw [hart] at hok; simp at hok
  | ok eas =>
    rw [hart] at hok
    obtain ⟨ea, _, hfa⟩ := collectResults_mem _ eas arts hok a ha
    have hname := get_artifact_tests_name_spec c ea (runner ea) a hfa
    simp [test.Artifact.run_args, hname]

/-! Fixtures for the test compile claims. -/

/-- A concrete test-profile artifact record with an executable. -/
def testFixtureCargoArt : CargoArtifact :=
  { package_id := { repr := "hello_world 0.1.0 (path+file:///w)" },
    target := { name := "hello_world", src_path := "src/lib.rs" },
    profile := { opt_level := "0", test := true },
    features := [], filenames := ["target/debug/deps/hello_world-1234"],
    executable := some "target/debug/deps/hello_world-1234", fresh := false }

/-- The executable artifact the fixture record converts to. -/
def testFixtureExec : ExecutableArtifact :=
  { package_id := { repr := "hello_world 0.1.0 (path+file:///w)" },
    target := { name := "hello_world", src_path := "src/lib.rs" },
    profile := { opt_level := "0", test := true },
    features := [], filenames := ["target/debug/deps/hello_world-1234"],
    executable := "target/debug/deps/hello_world-1234", fresh := false }

/-- A concrete test-profile artifact record without an executable path. -/
def testFixtureNoExecArt : CargoArtifact :=
  { package_id := { repr := "hello_world 0.1.0 (path+file:///w)" },
    target := { name := "hello_world", src_path := "src/lib.rs" },
    profile := { opt_level := "0", test := true },
    features := [], filenames := ["target/debug/deps/libhello_world-1234.rmeta"],
    executable := none, fresh := false }

/-- Claim C2, witness: the theorem applied to a concrete stream where a
diagnostic, a non-test-profile executable record and a test-profile record
without an executable are all dropped and the one test-profile executable
record is kept, and to a stream with no retainable record at all. -/
theorem test_artifacts_success_filter_witness :
    (test.Compiler.new .Any .Lib).artifacts_ignoring_name
        [Message.compilerMessage "warning", Message.compilerArtifact binFixtureArt1,
         Message.compilerArtifact testFixtureNoExecArt,
         Message.compilerArtifact testFixtureCargoArt]
        true (.ok "") = .ok [testFixtureExec]
    ∧ (test.Compiler.new .Any .Lib).artifacts_ignoring_name [Message.other]
        true (.ok "") = .ok [] :=
  ⟨(test_artifacts_success_filter (test.Compiler.new .Any .Lib)
      [Message.compilerMessage "warning", Message.compilerArtifact binFixtureArt1,
       Message.compilerArtifact testFixtureNoExecArt,
       Message.compilerArtifact testFixtureCargoArt] (.ok "")).1.trans (by rfl),
   (test_artifacts_success_filter (test.Compiler.new .Any .Lib)
      [Message.other] (.ok "")).2 (by rfl)⟩

/-- A listing behavior: every built binary lists one matching test. -/
def testFixtureRunner : ExecutableArtifact → test.ListingOut :=
  fun _ => { success := true, stdoutDecoded := .ok "test_in_lib_1: test\n",
             stderrLossy := "" }

/-- The artifact result the fixture compile produces. -/
def testFixtureResult : test.Artifact :=
  { artifact := testFixtureExec,
    tests := [{ name := "test_in_lib_1", test_type := .Test }],
    name_spec := .Substring "in_lib" }

/-- Claim C6, witness: the theorem applied to a concrete successful compile
of one test-profile artifact whose listing reports one test. -/
theorem run_args_derivation_witness :
    testFixtureResult.run_args = test.NameSpec.run_args (.Substring "in_lib") :=
  run_args_derivation.2.2.2.1
    (test.Compiler.new (.Substring "in_lib") .Lib)
    [Message.compilerArtifact testFixtureCargoArt] true (.ok "")
    testFixtureRunner [testFixtureResult] testFixtureResult
    (by rfl) (by decide)

end Seacan
